import Mathlib

/-!
Verification of the expense rule engine in
`expense_assistant/expense_agent/agent.py`: the validator
(`validate_expense_data`), the categorizer (`categorize_expense`) and the
aggregator (`generate_expense_summary`), shallowly embedded in Lean.

Modelling conventions:
* Python `float` amounts are modelled as exact rationals (`ℚ`), with exact
  arithmetic.  Where a claim turns on the rounding of the program's binary64
  accumulation (the aggregator's `+=` on `total_amount` and per-category
  totals), IEEE-754 double addition is modelled separately and faithfully by
  `F64`/`fadd` below.
* A record's `"amount"` entry is either a numeric value (`Amount.num`) or a
  string that does not parse as a float (`Amount.badStr`); a string that does
  parse behaves exactly like the number it denotes, so it is represented by
  `Amount.num`.  A missing `"amount"` key defaults to `0` in the source
  (`expense_data.get("amount", 0)`), hence is represented by `Amount.num 0`.
* `datetime.fromisoformat` is modelled for the plain `YYYY-MM-DD` subset of
  ISO-8601 (with Python's `MINYEAR = 1` and real month/day/leap validation);
  any other string is treated as unparseable, which the source handles by
  skipping the weekend check (validator) or raising (aggregator).
* Python's `str.lower` is modelled on the ASCII letters (`Char.toLower`).
* Python float rendering inside f-strings is modelled by `pyFloatRepr`,
  which agrees with Python on integral values (`150.0` ↦ `"150.0"`).
-/

/-- Python `str.lower` (ASCII portion). -/
def pyLower (s : String) : String := ⟨s.data.map Char.toLower⟩

/-- Python's substring test `needle in hay`. -/
def substrB (needle hay : String) : Bool :=
  hay.data.tails.any (fun t => needle.data.isPrefixOf t)

/-- The `"amount"` field of an expense record: a number, or a string that
does not parse as a Python float. -/
inductive Amount where
  | num (q : ℚ)
  | badStr (s : String)
deriving DecidableEq

/-- Python `float(x)` applied to an `"amount"` value: numbers convert, a
non-numeric string raises `ValueError("could not convert string to float: ...")`. -/
def pyFloat : Amount → Except String ℚ
  | .num q => .ok q
  | .badStr s => .error ("could not convert string to float: \x27" ++ s ++ "\x27")

/-- Python float rendering in f-strings, exact on integral values. -/
def pyFloatRepr (q : ℚ) : String :=
  if q.den = 1 then toString q.num ++ ".0" else toString q

/-- Python `s.replace("Z", "+00:00")` as applied to date strings. -/
def replaceZ (s : String) : String :=
  ⟨s.data.flatMap (fun c => if c = 'Z' then "+00:00".data else [c])⟩

def isDigit (c : Char) : Bool := '0' ≤ c ∧ c ≤ '9'

def digitVal (c : Char) : Nat := c.toNat - '0'.toNat

def isLeapYear (y : Nat) : Bool := (y % 4 = 0 ∧ y % 100 ≠ 0) ∨ y % 400 = 0

def daysInMonth (y m : Nat) : Nat :=
  if m = 2 then (if isLeapYear y then 29 else 28)
  else if m = 4 ∨ m = 6 ∨ m = 9 ∨ m = 11 then 30
  else 31

/-- Model of `datetime.fromisoformat` on the `YYYY-MM-DD` subset: year, month and day
with full calendar validation (`MINYEAR = 1`). -/
def parseIsoDate (s : String) : Option (Nat × Nat × Nat) :=
  match s.data with
  | [y1, y2, y3, y4, '-', m1, m2, '-', d1, d2] =>
    if isDigit y1 ∧ isDigit y2 ∧ isDigit y3 ∧ isDigit y4 ∧
       isDigit m1 ∧ isDigit m2 ∧ isDigit d1 ∧ isDigit d2 then
      let y := ((digitVal y1 * 10 + digitVal y2) * 10 + digitVal y3) * 10 + digitVal y4
      let m := digitVal m1 * 10 + digitVal m2
      let d := digitVal d1 * 10 + digitVal d2
      if 1 ≤ y ∧ 1 ≤ m ∧ m ≤ 12 ∧ 1 ≤ d ∧ d ≤ daysInMonth y m then
        some (y, m, d)
      else none
    else none
  | _ => none

/-- Day count since 0000-03-01 in the proleptic Gregorian calendar
(Howard Hinnant's `days_from_civil`, natural-number form; valid for y ≥ 1). -/
def daysFromCivil (y m d : Nat) : Nat :=
  let y' := if m ≤ 2 then y - 1 else y
  let era := y' / 400
  let yoe := y' % 400
  let mp := (m + 9) % 12
  let doy := (153 * mp + 2) / 5 + d - 1
  let doe := yoe * 365 + yoe / 4 - yoe / 100 + doy
  era * 146097 + doe

/-- Python `date.weekday()`: Monday = 0 … Sunday = 6.
0000-03-01 of the proleptic Gregorian calendar is a Wednesday (= 2). -/
def pyWeekday (y m d : Nat) : Nat := (daysFromCivil y m d + 2) % 7

/-- The weekend check of the validator: a parseable date falling on a
Saturday or Sunday; an unparseable date is skipped (`except: pass`). -/
def weekendFlag (s : String) : Bool :=
  match parseIsoDate (replaceZ s) with
  | some (y, m, d) => 5 ≤ pyWeekday y m d
  | none => false

/-- An expense record as consumed by the validator and the aggregator.
`category` is `none` when the `"category"` key is absent (the validator
defaults it to `""`, the aggregator to `"miscellaneous"`). -/
structure ExpenseRecord where
  amount : Amount := .num 0
  category : Option String := none
  location : String := ""
  description : String := ""
  date : String := ""
  has_receipt : Bool := false
deriving DecidableEq

/-- The dict returned by `validate_expense_data`. -/
structure ValidationResult where
  is_valid : Bool
  violations : List String
  warnings : List String
  required_documents : List String
  policy_references : List String
deriving DecidableEq

/-- The category-specific rule block of `validate_expense_data`
(`category` already lowered, `dl` the lowered description). -/
def categoryRules (category : String) (amount : ℚ) (dl : String)
    (v : ValidationResult) : ValidationResult :=
  if category = "meals" then
    let v := if amount > 100 then
        { v with
          violations := v.violations ++
            ["Meal expense of $" ++ pyFloatRepr amount ++ " exceeds daily policy limit of $100"]
          policy_references := v.policy_references ++ ["Section 3.2 - Meal Allowances"]
          is_valid := false }
      else v
    let v := if amount > 25 then
        { v with required_documents := v.required_documents ++
            ["Receipt required for meals over $25"] }
      else v
    if amount > 50 ∧ ¬ substrB "business" dl then
      { v with warnings := v.warnings ++
          ["High meal expense should include business justification"] }
    else v
  else if category = "lodging" then
    if amount > 300 then
      { v with
        violations := v.violations ++
          ["Lodging expense of $" ++ pyFloatRepr amount ++ " exceeds nightly limit of $300"]
        policy_references := v.policy_references ++ ["Section 4.1 - Accommodation Limits"]
        is_valid := false }
    else v
  else if category = "transportation" then
    let v := if (substrB "uber" dl || substrB "lyft" dl || substrB "taxi" dl) ∧ amount > 75 then
        { v with warnings := v.warnings ++
            ["Ride-share expenses over $75 may require business justification"] }
      else v
    if substrB "rental" dl ∧ amount > 500 then
      { v with required_documents := v.required_documents ++
          ["Car rental agreement and fuel receipts required"] }
    else v
  else if category = "airfare" then
    if amount > 1000 then
      { v with
        warnings := v.warnings ++
          ["Airfare over $1000 may require manager approval for business class"]
        required_documents := v.required_documents ++
          ["Flight itinerary and boarding passes"] }
    else v
  else v

/-- The universal receipt rule of `validate_expense_data`. -/
def universalReceiptRule (amount : ℚ) (hasReceipt : Bool)
    (v : ValidationResult) : ValidationResult :=
  if amount > 25 ∧ hasReceipt = false then
    { v with
      required_documents := v.required_documents ++
        ["Receipt required for all expenses over $25"]
      policy_references := v.policy_references ++
        ["Section 2.1 - Documentation Requirements"] }
  else v

/-- The weekend-flag rule of `validate_expense_data` (`if date:` plus the
inner try/except around `fromisoformat`). -/
def weekendRule (date : String) (v : ValidationResult) : ValidationResult :=
  if date ≠ "" ∧ weekendFlag date then
    { v with warnings := v.warnings ++ ["Weekend expense flagged for review"] }
  else v

/-- The validator `validate_expense_data` (with `tool_context = None`): the per-category
policy rules, then the universal receipt rule, then the weekend flag, run
in the source's order on the initially-valid result.  A non-numeric amount
raises at `float(...)` inside the `try`, producing the diagnostic error
result. -/
def validate_expense_data (e : ExpenseRecord) : ValidationResult :=
  match pyFloat e.amount with
  | .error msg => ⟨false, ["Error validating expense data: " ++ msg], [], [], []⟩
  | .ok amount =>
    weekendRule e.date
      (universalReceiptRule amount e.has_receipt
        (categoryRules (pyLower (e.category.getD "")) amount (pyLower e.description)
          ⟨true, [], [], [], []⟩))

/-- The transportation keyword table of `categorize_expense`, in source order. -/
def transport_keywords : List (String × ℚ) :=
  [("flight", mkRat 95 100), ("airline", mkRat 9 10), ("airfare", mkRat 95 100), ("plane", mkRat 8 10),
   ("uber", mkRat 9 10), ("lyft", mkRat 9 10), ("taxi", mkRat 85 100), ("cab", mkRat 8 10), ("rideshare", mkRat 85 100),
   ("rental", mkRat 7 10), ("hertz", mkRat 9 10), ("avis", mkRat 9 10), ("enterprise", mkRat 9 10),
   ("parking", mkRat 8 10), ("toll", mkRat 8 10), ("mileage", mkRat 85 100), ("gas", mkRat 6 10)]

/-- The lodging keyword table of `categorize_expense`, in source order. -/
def lodging_keywords : List (String × ℚ) :=
  [("hotel", mkRat 95 100), ("motel", mkRat 9 10), ("accommodation", mkRat 9 10), ("lodging", mkRat 95 100),
   ("resort", mkRat 85 100), ("inn", mkRat 8 10), ("marriott", mkRat 95 100), ("hilton", mkRat 95 100),
   ("hyatt", mkRat 95 100), ("airbnb", mkRat 8 10), ("booking", mkRat 7 10)]

/-- The meals keyword table of `categorize_expense`, in source order. -/
def meal_keywords : List (String × ℚ) :=
  [("restaurant", mkRat 9 10), ("dinner", mkRat 85 100), ("lunch", mkRat 85 100), ("breakfast", mkRat 85 100),
   ("meal", mkRat 9 10), ("food", mkRat 7 10), ("cafe", mkRat 8 10), ("starbucks", mkRat 8 10),
   ("mcdonald", mkRat 8 10), ("subway", mkRat 8 10), ("client dinner", mkRat 95 100)]

/-- The office-supplies keyword table of `categorize_expense`, in source order. -/
def office_keywords : List (String × ℚ) :=
  [("office", mkRat 9 10), ("supplies", mkRat 85 100), ("stationery", mkRat 9 10), ("printer", mkRat 8 10),
   ("paper", mkRat 7 10), ("staples", mkRat 9 10), ("depot", mkRat 8 10), ("amazon", mkRat 4 10)]

/-- The four scoring tables with their category names, in the order the
source runs them. -/
def catTables : List (String × List (String × ℚ)) :=
  [("transportation", transport_keywords), ("lodging", lodging_keywords),
   ("meals", meal_keywords), ("office_supplies", office_keywords)]

/-- Python `category_scores[key] = max(category_scores.get(key, 0), w)`:
update in place when the key is present, else append at the end
(dict insertion order). -/
def setMax (sc : List (String × ℚ)) (key : String) (w : ℚ) : List (String × ℚ) :=
  match sc with
  | [] => [(key, max 0 w)]
  | (k, v) :: rest =>
    if k = key then (k, max v w) :: rest else (k, v) :: setMax rest key w

/-- One keyword loop of `categorize_expense`: for every `(keyword, score)` of
the table, if the keyword occurs in the lowered description or merchant,
raise the category's score to at least `score`. -/
def scoreLoop (key dl ml : String) : List (String × ℚ) → List (String × ℚ) → List (String × ℚ)
  | [], sc => sc
  | kv :: tbl, sc =>
    scoreLoop key dl ml tbl
      (if substrB kv.1 dl || substrB kv.1 ml then setMax sc key kv.2 else sc)

/-- The `category_scores` dict after the four keyword loops, as an
insertion-ordered association list. -/
def categoryScores (description merchant : String) : List (String × ℚ) :=
  scoreLoop "office_supplies" (pyLower description) (pyLower merchant) office_keywords
    (scoreLoop "meals" (pyLower description) (pyLower merchant) meal_keywords
      (scoreLoop "lodging" (pyLower description) (pyLower merchant) lodging_keywords
        (scoreLoop "transportation" (pyLower description) (pyLower merchant)
          transport_keywords [])))

/-- Python `max(items, key=...)`: the first element attaining the maximal
key (later elements replace the current one only when strictly greater). -/
def pyMaxBy {α : Type} {β : Type} [LinearOrder β] (key : α → β) : List α → Option α
  | [] => none
  | x :: xs =>
    match pyMaxBy key xs with
    | none => some x
    | some y => if key x < key y then some y else some x

/-- Python `sorted(items, key=lambda x: x[1], reverse=True)`: stable
descending sort by score. -/
def sortDescBySnd (l : List (String × ℚ)) : List (String × ℚ) :=
  List.insertionSort (fun x y => y.2 ≤ x.2) l

/-- The dict returned by `categorize_expense` (the `error` key of the
unreachable exception path is omitted: no operation of the function raises
on string/number inputs). -/
structure CategorizationResult where
  category : String
  subcategory : String
  confidence : ℚ
  alternative_categories : List (String × ℚ)
deriving DecidableEq

/-- The categorizer `categorize_expense` (with `tool_context = None`): the best category is
Python's `max(category_scores.items(), key=...)`, the subcategory a second
description-keyword pass, the alternatives `sorted(...)[1:3]`. -/
def categorize_expense (description : String) (merchant : String := "")
    (amount : ℚ := 0) : CategorizationResult :=
  match pyMaxBy (fun p : String × ℚ => p.2) (categoryScores description merchant) with
  | none =>
    { category := "miscellaneous", subcategory := "other", confidence := mkRat 2 10,
      alternative_categories := [] }
  | some best =>
    { category := best.1
      subcategory :=
        if best.1 = "transportation" then
          if substrB "flight" (pyLower description) || substrB "airline" (pyLower description)
              || substrB "airfare" (pyLower description) then "airfare"
          else if substrB "uber" (pyLower description) || substrB "lyft" (pyLower description)
              || substrB "taxi" (pyLower description) then "rideshare"
          else if substrB "rental" (pyLower description) then "car_rental"
          else if substrB "parking" (pyLower description)
              || substrB "toll" (pyLower description) then "misc_transport"
          else "general"
        else if best.1 = "meals" then
          if amount > 75 then "business_meal"
          else if substrB "breakfast" (pyLower description) then "breakfast"
          else if substrB "lunch" (pyLower description) then "lunch"
          else if substrB "dinner" (pyLower description) then "dinner"
          else "general"
        else "general"
      confidence := best.2
      alternative_categories :=
        ((sortDescBySnd (categoryScores description merchant)).drop 1).take 2 }

/-- The contribution of one category's table to `category_scores`: nothing
when no keyword matched, one `(category, score)` entry otherwise. -/
def optEntry (k : String) : Option ℚ → List (String × ℚ)
  | none => []
  | some w => [(k, w)]

/-- The maximum weight among the keywords of `tbl` that occur as substrings
of the lowered description `dl` or lowered merchant `ml` — the claim-level
reading of a category's score (a maximum, not a sum). -/
def maxMatched (tbl : List (String × ℚ)) (dl ml : String) : Option ℚ :=
  ((tbl.filter fun kv => substrB kv.1 dl || substrB kv.1 ml).map (fun kv => kv.2)).max?

/-- No keyword of any of the four category tables occurs as a substring of
the case-folded description or merchant. -/
def noKeywordMatch (description merchant : String) : Prop :=
  ∀ nt ∈ catTables, ∀ kv ∈ nt.2,
    substrB kv.1 (pyLower description) = false ∧ substrB kv.1 (pyLower merchant) = false

instance (description merchant : String) : Decidable (noKeywordMatch description merchant) := by
  unfold noKeywordMatch
  infer_instance

/-- One entry of a category bucket's `expenses` list in the summary. -/
structure CatExpense where
  amount : ℚ
  description : String
  date : String
deriving DecidableEq

/-- A per-category bucket of the summary's `categories` mapping. -/
structure CatData where
  count : Nat
  total : ℚ
  average : ℚ
  expenses : List CatExpense
deriving DecidableEq

/-- The summary's `compliance_status` dict. -/
structure ComplianceStatus where
  total_violations : Nat
  violations : List String
  warnings : List String
  ready_for_submission : Bool
deriving DecidableEq

/-- The summary's `date_range` dict when populated (`none` models `{}`). -/
structure DateRange where
  start_date : String
  end_date : String
  duration_days : Int
deriving DecidableEq

/-- The summary's `statistics` dict when populated (`none` models `{}`). -/
structure Statistics where
  average_expense : ℚ
  largest_expense : ℚ
  smallest_expense : ℚ
  most_common_category : String
deriving DecidableEq

/-- The dict returned by `generate_expense_summary`.  `categories` is an
insertion-ordered association list, as a Python dict. -/
structure ExpenseSummary where
  total_amount : ℚ
  expense_count : Nat
  categories : List (String × CatData)
  compliance_status : ComplianceStatus
  required_documents : List String
  policy_references : List String
  date_range : Option DateRange
  statistics : Option Statistics
deriving DecidableEq

/-- Category tracking of the aggregator loop: insert an initial bucket at
the end when the category is new, then increment count/total and append
the expense entry (the total is accumulated exactly, as for `processOne`). -/
def bumpCat (cats : List (String × CatData)) (c : String) (a : ℚ)
    (desc dt : String) : List (String × CatData) :=
  match cats with
  | [] => [(c, ⟨1, a, 0, [⟨a, desc, dt⟩]⟩)]
  | (k, d) :: rest =>
    if k = c then
      (k, ⟨d.count + 1, d.total + a, d.average, d.expenses ++ [⟨a, desc, dt⟩]⟩) :: rest
    else (k, d) :: bumpCat rest c a desc dt

/-- The `f"Expense #{i+1}: {s}"` annotation of the aggregator loop. -/
def tagExpense (i : Nat) (s : String) : String :=
  "Expense #" ++ toString (i + 1) ++ ": " ++ s

/-- The mutable state of the aggregator's per-record loop. -/
structure LoopAcc where
  total : ℚ
  cats : List (String × CatData)
  nviol : Nat
  viol : List String
  warns : List String
  ready : Bool
  docs : List String
  refs : List String
  dates : List String
deriving DecidableEq

def initAcc : LoopAcc := ⟨0, [], 0, [], [], true, [], [], []⟩

/-- One iteration of the aggregator loop (record at 0-based index `i`).
A non-numeric amount raises at `float(...)` before anything else is read;
the per-record handler records the error and the loop continues.  The
running-total additions are exact rational additions here; the program's
binary64 rounding of the same accumulation is modelled by `fadd`. -/
def processOne (i : Nat) (acc : LoopAcc) (e : ExpenseRecord) : LoopAcc :=
  match pyFloat e.amount with
  | .error msg =>
    { acc with
      viol := acc.viol ++ [tagExpense i ("Error processing expense - " ++ msg)]
      ready := false }
  | .ok a =>
    let category := e.category.getD "miscellaneous"
    let validation := validate_expense_data e
    { total := acc.total + a
      cats := bumpCat acc.cats category a e.description e.date
      nviol := acc.nviol + (if validation.is_valid then 0 else validation.violations.length)
      viol := acc.viol ++
        (if validation.is_valid then [] else validation.violations.map (tagExpense i))
      warns := acc.warns ++ validation.warnings.map (tagExpense i)
      ready := acc.ready && validation.is_valid
      docs := acc.docs ++ validation.required_documents
      refs := acc.refs ++ validation.policy_references
      dates := acc.dates ++ (if e.date ≠ "" then [e.date] else []) }

/-- The aggregator's `for i, expense in enumerate(expenses)` loop. -/
def sumLoop : Nat → LoopAcc → List ExpenseRecord → LoopAcc
  | _, acc, [] => acc
  | i, acc, e :: es => sumLoop (i + 1) (processOne i acc e) es

/-- Model of `list(set(xs))`: deduplication.  CPython's set iteration order is
unspecified; it is modelled as first-occurrence order (no claim depends
on the order of the deduplicated lists). -/
def dedupFirst (l : List String) : List String :=
  l.foldl (fun acc x => if x ∈ acc then acc else acc ++ [x]) []

/-- Python `list.sort()` on strings: stable ascending (code-point
lexicographic) sort. -/
def sortAscStr (l : List String) : List String :=
  List.insertionSort (fun x y => x ≤ y) l

def isBadAmount : Amount → Bool
  | .num _ => false
  | .badStr _ => true

/-- The parsed amount of a record inside branches where every amount is
known to parse (the non-parsing case is caught by the aggregator's outer
error branch, so the default is never observed). -/
def amountD (e : ExpenseRecord) : ℚ :=
  match pyFloat e.amount with
  | .ok a => a
  | .error _ => 0

/-- Python `max` over a nonempty float list (the empty default is never
observed: the statistics block only runs on a nonempty batch). -/
def pyMaxQ : List ℚ → ℚ
  | [] => 0
  | a :: t => t.foldl max a

/-- Python `min` over a nonempty float list. -/
def pyMinQ : List ℚ → ℚ
  | [] => 0
  | a :: t => t.foldl min a

/-- Day number of a date string inside branches where it is known to parse. -/
def dayNumber (s : String) : Int :=
  match parseIsoDate (replaceZ s) with
  | some (y, m, d) => (daysFromCivil y m d : Int)
  | none => 0

/-- The dict returned by the aggregator's outermost `except` handler. -/
def errorSummary (msg : String) : ExpenseSummary :=
  { total_amount := 0
    expense_count := 0
    categories := []
    compliance_status :=
      ⟨1, ["Error generating summary: " ++ msg], [], false⟩
    required_documents := []
    policy_references := []
    date_range := none
    statistics := none }

/-- The `ValueError` message of the first `fromisoformat` call that fails in
the date-range block (`dates[-1]` is parsed before `dates[0]`).  CPython's
message text varies with the kind of malformation; the representative
`Invalid isoformat string` form is used, and no result below depends on it. -/
def isoMsg (sortedDates : List String) : String :=
  let bad := if parseIsoDate (replaceZ (sortedDates.getLastD "")) = none
             then sortedDates.getLastD "" else sortedDates.headD ""
  "Invalid isoformat string: \x27" ++ replaceZ bad ++ "\x27"

/-- The `ValueError` message of the first `float(...)` call that fails in
the statistics block (records in input order). -/
def floatMsgOf (es : List ExpenseRecord) : String :=
  (es.filterMap (fun e =>
    match pyFloat e.amount with
    | .error m => some m
    | .ok _ => none)).headD ""

/-- The failure condition of the date-range block: with at least two dates,
`fromisoformat` is called on the (lexicographically) last and first sorted
date strings and raises on an unparseable one. -/
def dateRangeFails (sortedDates : List String) : Prop :=
  1 < sortedDates.length ∧
    (parseIsoDate (replaceZ (sortedDates.getLastD "")) = none ∨
     parseIsoDate (replaceZ (sortedDates.headD "")) = none)

instance (sortedDates : List String) : Decidable (dateRangeFails sortedDates) := by
  unfold dateRangeFails
  infer_instance

/-- The per-category average computation after the loop
(`total / count` when `count > 0`). -/
def setAverage (dd : CatData) : CatData :=
  { dd with average := if dd.count ≠ 0 then dd.total / (dd.count : ℚ) else dd.average }

/-- The normal (no outer exception) summary assembled from the loop state:
category averages, deduplicated documents/references, date range and
statistics. -/
def summaryBody (es : List ExpenseRecord) (acc : LoopAcc) : ExpenseSummary :=
  { total_amount := acc.total
    expense_count := es.length
    categories := acc.cats.map (fun p => (p.1, setAverage p.2))
    compliance_status := ⟨acc.nviol, acc.viol, acc.warns, acc.ready⟩
    required_documents := dedupFirst acc.docs
    policy_references := dedupFirst acc.refs
    date_range :=
      if (sortAscStr acc.dates).isEmpty then none
      else some
        { start_date := (sortAscStr acc.dates).headD ""
          end_date := (sortAscStr acc.dates).getLastD ""
          duration_days :=
            if 1 < (sortAscStr acc.dates).length then
              dayNumber ((sortAscStr acc.dates).getLastD "") -
                dayNumber ((sortAscStr acc.dates).headD "") + 1
            else 1 }
    statistics :=
      if 0 < es.length then
        some
          { average_expense := acc.total / (es.length : ℚ)
            largest_expense := pyMaxQ (es.map amountD)
            smallest_expense := pyMinQ (es.map amountD)
            most_common_category :=
              match pyMaxBy (fun p : String × CatData => p.2.count)
                (acc.cats.map (fun p => (p.1, setAverage p.2))) with
              | some p => p.1
              | none => "none" }
      else none }

/-- The aggregator `generate_expense_summary` (with `tool_context = None`).  The summary is
built record by record with per-record failure isolation; but the date-range
block re-parses the sorted date strings and the statistics block re-parses
every record's amount, and an exception in either is caught only by the
outermost handler, which replaces the whole summary with `errorSummary`. -/
def generate_expense_summary (es : List ExpenseRecord) : ExpenseSummary :=
  if dateRangeFails (sortAscStr (sumLoop 0 initAcc es).dates) then
    errorSummary (isoMsg (sortAscStr (sumLoop 0 initAcc es).dates))
  else if 0 < es.length ∧ es.any (fun e => isBadAmount e.amount) then
    errorSummary (floatMsgOf es)
  else summaryBody es (sumLoop 0 initAcc es)

/-- The record-level measures the aggregator's loop accumulates, read off a
single record: the parsed amount when it parses. -/
def okAmt (e : ExpenseRecord) : Option ℚ := (pyFloat e.amount).toOption

/-- Whether a record is processed without exception and validates cleanly. -/
def recOk (e : ExpenseRecord) : Bool :=
  match pyFloat e.amount with
  | .ok _ => (validate_expense_data e).is_valid
  | .error _ => false

/-- The date a successfully-processed record contributes to the `dates` list. -/
def dateOf (e : ExpenseRecord) : Option String :=
  match pyFloat e.amount with
  | .ok _ => if e.date ≠ "" then some e.date else none
  | .error _ => none

/-- Whether a record contributes to the category bucket `c`. -/
def recOkCat (e : ExpenseRecord) (c : String) : Bool :=
  match pyFloat e.amount with
  | .ok _ => (e.category.getD "miscellaneous") == c
  | .error _ => false

/-- The amount a record contributes to the category bucket `c`. -/
def amtIfCat (e : ExpenseRecord) (c : String) : Option ℚ :=
  match pyFloat e.amount with
  | .ok q => if (e.category.getD "miscellaneous") == c then some q else none
  | .error _ => none

/-- The count stored under key `c` of a categories mapping (0 when absent). -/
def lkCount (cats : List (String × CatData)) (c : String) : Nat :=
  match cats.lookup c with
  | some dd => dd.count
  | none => 0

/-- The total stored under key `c` of a categories mapping (0 when absent). -/
def lkTotal (cats : List (String × CatData)) (c : String) : ℚ :=
  match cats.lookup c with
  | some dd => dd.total
  | none => 0

/-- The observable per-category data of a summary: the `count` and `total`
stored under category `c`, `none` when the category is absent. -/
def catCountTotal (s : ExpenseSummary) (c : String) : Option (Nat × ℚ) :=
  (s.categories.lookup c).map (fun dd => (dd.count, dd.total))

/-- An entry of the validator session state appended to
`validation_history` when a tool context is present. -/
structure HistEntry where
  timestamp : String
  expense : ExpenseRecord
  is_valid : Bool
  violations_count : Nat
deriving DecidableEq

/-- The validator `validate_expense_data` with a tool context: the validation result is
computed exactly as without a context, and an entry is appended to the
`validation_history` state bag (`now` models `datetime.now().isoformat()`,
an input of the environment). -/
def validate_with_context (e : ExpenseRecord) (now : String)
    (history : List HistEntry) : ValidationResult × List HistEntry :=
  let res := validate_expense_data e
  (res, history ++ [⟨now, e, res.is_valid, res.violations.length⟩])

/-- Bit length of a natural number, by fuelled structural recursion so the
kernel can evaluate it (200 bits covers every operand the binary64
additions below produce). -/
def bitLenAux : Nat → Nat → Nat
  | 0, _ => 0
  | fuel + 1, n => if n = 0 then 0 else bitLenAux fuel (n / 2) + 1

def bitLen (n : Nat) : Nat := bitLenAux 200 n

/-- A binary64 floating-point value `m * 2^e`, sign carried by `m`.  The
exponent is unbounded in the model: overflow and subnormal underflow do not
arise in the normal range exercised here. -/
structure F64 where
  m : Int
  e : Int
deriving DecidableEq

/-- Round the positive value `M * 2^e` to 53 significant bits with
round-to-nearest, ties to even — the IEEE-754 binary64 rounding CPython
floats use. -/
def roundPos (M : Nat) (e : Int) : F64 :=
  if bitLen M ≤ 53 then ⟨M, e⟩
  else
    let s := bitLen M - 53
    let q := M / 2 ^ s
    let r := M % 2 ^ s
    let half := 2 ^ (s - 1)
    let q2 := if half < r ∨ (r = half ∧ q % 2 = 1) then q + 1 else q
    if q2 = 2 ^ 53 then ⟨((2 ^ 52 : Nat) : Int), e + (s : Int) + 1⟩
    else ⟨(q2 : Int), e + (s : Int)⟩

/-- Round `M * 2^e` for any integer `M` (binary64 rounding is
sign-symmetric). -/
def roundF (M : Int) (e : Int) : F64 :=
  if 0 ≤ M then roundPos M.toNat e
  else
    let p := roundPos (-M).toNat e
    ⟨-p.m, p.e⟩

/-- IEEE-754 binary64 addition, CPython's `float` addition: align the binary
exponents, add the significands exactly, then round to 53 bits. -/
def fadd (x y : F64) : F64 :=
  if x.e ≤ y.e then roundF (x.m + y.m * ((2 ^ (y.e - x.e).toNat : Nat) : Int)) x.e
  else roundF (x.m * ((2 ^ (x.e - y.e).toNat : Nat) : Int) + y.m) y.e

/-- Value equality of two binary64 representations: `m1*2^e1 = m2*2^e2`. -/
def fvalEq (x y : F64) : Bool :=
  if x.e ≤ y.e then x.m == y.m * ((2 ^ (y.e - x.e).toNat : Nat) : Int)
  else x.m * ((2 ^ (x.e - y.e).toNat : Nat) : Int) == y.m

/-- The `summary["total_amount"] += amount` accumulation of the aggregator
loop under CPython's binary64 semantics: starting from `0.0`, each record's
parsed amount is added in input order with correctly rounded double
addition. -/
def floatTotal (amounts : List F64) : F64 :=
  amounts.foldl fadd ⟨0, 0⟩

/-- The coupling between `is_valid` and `violations` that every validator
rule maintains. -/
def VInv (v : ValidationResult) : Prop := v.is_valid = false ↔ v.violations ≠ []

/-- C10: on the empty record list, `generate_expense_summary` returns zero
total, zero count, an empty categories mapping, a compliance status with no
violations and `ready_for_submission = True`, empty document and reference
lists, and empty (`{}`) date-range and statistics blocks. -/
theorem generate_expense_summary_empty :
    (generate_expense_summary []).total_amount = 0 ∧
    (generate_expense_summary []).expense_count = 0 ∧
    (generate_expense_summary []).categories = [] ∧
    (generate_expense_summary []).compliance_status = ⟨0, [], [], true⟩ ∧
    (generate_expense_summary []).required_documents = [] ∧
    (generate_expense_summary []).policy_references = [] ∧
    (generate_expense_summary []).date_range = none ∧
    (generate_expense_summary []).statistics = none := by
  decide

/-- C8: `categorize_expense("Dinner with client", "", 85)` returns category
`"meals"`, subcategory `"business_meal"` (85 > 75), and confidence at least
0.85. -/
theorem categorize_dinner_with_client :
    (categorize_expense "Dinner with client" "" 85).category = "meals" ∧
    (categorize_expense "Dinner with client" "" 85).subcategory = "business_meal" ∧
    mkRat 85 100 ≤ (categorize_expense "Dinner with client" "" 85).confidence := by
  decide

/-- C2 (failing input): on a batch holding one record whose amount does not
parse, the per-record handler records the failure, but the statistics block
re-parses the amount outside the per-record `try`, raises, and the whole
summary is replaced by the outer error dict: the returned value is
`errorSummary ...` with `expense_count = 0`, a single
`"Error generating summary: ..."` violation carrying no `"Expense #1"` tag,
and no per-category data — not the normal summary structure. -/
theorem generate_expense_summary_bad_amount_replaces_summary :
    generate_expense_summary [{ amount := .badStr "abc", category := some "meals" }] =
      errorSummary "could not convert string to float: \x27abc\x27" ∧
    (generate_expense_summary
      [{ amount := .badStr "abc", category := some "meals" }]).expense_count = 0 ∧
    (generate_expense_summary
      [{ amount := .badStr "abc", category := some "meals" }]).compliance_status.violations =
      ["Error generating summary: could not convert string to float: \x27abc\x27"] := by
  decide

/-- C1 (counterexample): on the no-match call `categorize_expense("", "", 0)`
the returned confidence is 0.2, not 0.0 as claimed. -/
theorem categorize_empty_confidence_ne_zero :
    (categorize_expense "" "" 0).confidence = mkRat 2 10 ∧
    (categorize_expense "" "" 0).confidence ≠ 0 := by
  decide

/-- C9: `validate_expense_data` is deterministic: the result does not depend
on the session history or the clock, so two successive calls on an identical
record (the second seeing the state written by the first) return the very
result of the context-free validator both times. -/
theorem validate_deterministic (e : ExpenseRecord) (now₁ now₂ : String)
    (history : List HistEntry) :
    (validate_with_context e now₂ (validate_with_context e now₁ history).2).1 =
      (validate_with_context e now₁ history).1 ∧
    (validate_with_context e now₁ history).1 = validate_expense_data e :=
  ⟨rfl, rfl⟩

/-- C9 (witness): the two-call equality at a concrete record and state. -/
theorem validate_deterministic_witness :
    (validate_with_context { amount := .num 30 } "t2"
        (validate_with_context { amount := .num 30 } "t1" []).2).1 =
      (validate_with_context { amount := .num 30 } "t1" []).1 :=
  (validate_deterministic { amount := .num 30 } "t1" "t2" []).1

theorem categoryRules_VInv (category : String) (amount : ℚ) (dl : String)
    (v : ValidationResult) (h : VInv v) : VInv (categoryRules category amount dl v) := by
  unfold VInv at h ⊢
  unfold categoryRules
  split_ifs <;> simp_all

theorem universalReceiptRule_VInv (amount : ℚ) (hasReceipt : Bool)
    (v : ValidationResult) (h : VInv v) : VInv (universalReceiptRule amount hasReceipt v) := by
  unfold VInv at h ⊢
  unfold universalReceiptRule
  split_ifs <;> simp_all

theorem weekendRule_VInv (date : String) (v : ValidationResult) (h : VInv v) :
    VInv (weekendRule date v) := by
  unfold VInv at h ⊢
  unfold weekendRule
  split_ifs <;> simp_all

/-- C3: for every record, the validator's `is_valid` is `false` exactly when
its `violations` list is non-empty. -/
theorem validate_is_valid_iff_no_violations (e : ExpenseRecord) :
    (validate_expense_data e).is_valid = false ↔
      (validate_expense_data e).violations ≠ [] := by
  unfold validate_expense_data
  cases pyFloat e.amount with
  | error msg => simp
  | ok amount =>
    exact weekendRule_VInv _ _ (universalReceiptRule_VInv _ _ _
      (categoryRules_VInv _ _ _ _ (by simp [VInv])))

/-- C3 (witness): the equivalence at a concrete record. -/
theorem validate_is_valid_iff_no_violations_witness :
    (validate_expense_data { amount := .num 150, category := some "Meals" }).is_valid = false ↔
      (validate_expense_data { amount := .num 150, category := some "Meals" }).violations ≠ [] :=
  validate_is_valid_iff_no_violations { amount := .num 150, category := some "Meals" }

theorem universalReceiptRule_is_valid (amount : ℚ) (hasReceipt : Bool)
    (v : ValidationResult) : (universalReceiptRule amount hasReceipt v).is_valid = v.is_valid := by
  unfold universalReceiptRule
  split_ifs <;> rfl

theorem universalReceiptRule_violations (amount : ℚ) (hasReceipt : Bool)
    (v : ValidationResult) :
    (universalReceiptRule amount hasReceipt v).violations = v.violations := by
  unfold universalReceiptRule
  split_ifs <;> rfl

theorem universalReceiptRule_refs_mem (amount : ℚ) (hasReceipt : Bool)
    (v : ValidationResult) (s : String) (h : s ∈ v.policy_references) :
    s ∈ (universalReceiptRule amount hasReceipt v).policy_references := by
  unfold universalReceiptRule
  split_ifs <;> simp [h]

theorem universalReceiptRule_docs_small (amount : ℚ) (hasReceipt : Bool)
    (v : ValidationResult) (h25 : ¬ amount > 25) :
    (universalReceiptRule amount hasReceipt v).required_documents = v.required_documents := by
  unfold universalReceiptRule
  rw [if_neg (fun hc => h25 hc.1)]

theorem weekendRule_is_valid (date : String) (v : ValidationResult) :
    (weekendRule date v).is_valid = v.is_valid := by
  unfold weekendRule
  split_ifs <;> rfl

theorem weekendRule_violations (date : String) (v : ValidationResult) :
    (weekendRule date v).violations = v.violations := by
  unfold weekendRule
  split_ifs <;> rfl

theorem weekendRule_refs (date : String) (v : ValidationResult) :
    (weekendRule date v).policy_references = v.policy_references := by
  unfold weekendRule
  split_ifs <;> rfl

theorem weekendRule_docs (date : String) (v : ValidationResult) :
    (weekendRule date v).required_documents = v.required_documents := by
  unfold weekendRule
  split_ifs <;> rfl

theorem categoryRules_meals_over (amount : ℚ) (dl : String) (h : amount > 100) :
    (categoryRules "meals" amount dl ⟨true, [], [], [], []⟩).is_valid = false ∧
    (categoryRules "meals" amount dl ⟨true, [], [], [], []⟩).violations =
      ["Meal expense of $" ++ pyFloatRepr amount ++ " exceeds daily policy limit of $100"] ∧
    (categoryRules "meals" amount dl ⟨true, [], [], [], []⟩).policy_references =
      ["Section 3.2 - Meal Allowances"] := by
  unfold categoryRules
  split_ifs <;> simp_all

theorem categoryRules_docs_small (category : String) (amount : ℚ) (dl : String)
    (v : ValidationResult) (h25 : ¬ amount > 25) :
    (categoryRules category amount dl v).required_documents = v.required_documents := by
  have h100 : ¬ amount > 100 := fun hh => h25 (by linarith)
  have h500 : ¬ amount > 500 := fun hh => h25 (by linarith)
  have h1000 : ¬ amount > 1000 := fun hh => h25 (by linarith)
  unfold categoryRules
  split_ifs <;> simp_all

/-- C4: a record whose category is (case-insensitively) `"meals"` with an
amount over 100 is invalid, with the daily-limit violation and the
"Section 3.2" policy reference. -/
theorem validate_meals_over_limit (e : ExpenseRecord) (q : ℚ)
    (hamt : pyFloat e.amount = .ok q) (hq : q > 100)
    (hcat : pyLower (e.category.getD "") = "meals") :
    (validate_expense_data e).is_valid = false ∧
    ("Meal expense of $" ++ pyFloatRepr q ++ " exceeds daily policy limit of $100")
      ∈ (validate_expense_data e).violations ∧
    "Section 3.2 - Meal Allowances" ∈ (validate_expense_data e).policy_references := by
  unfold validate_expense_data
  simp only [hamt, hcat]
  obtain ⟨h1, h2, h3⟩ := categoryRules_meals_over q (pyLower e.description) hq
  refine ⟨?_, ?_, ?_⟩
  · rw [weekendRule_is_valid, universalReceiptRule_is_valid, h1]
  · rw [weekendRule_violations, universalReceiptRule_violations, h2]
    simp
  · rw [weekendRule_refs]
    exact universalReceiptRule_refs_mem _ _ _ _ (by rw [h3]; simp)

/-- C4 (witness): the meals rule at the concrete record
`{amount: 150, category: "Meals"}`. -/
theorem validate_meals_over_limit_witness :
    (validate_expense_data { amount := .num 150, category := some "Meals" }).is_valid = false ∧
    ("Meal expense of $" ++ pyFloatRepr 150 ++ " exceeds daily policy limit of $100")
      ∈ (validate_expense_data { amount := .num 150, category := some "Meals" }).violations ∧
    "Section 3.2 - Meal Allowances"
      ∈ (validate_expense_data { amount := .num 150, category := some "Meals" }).policy_references :=
  validate_meals_over_limit _ 150 rfl (by decide) (by decide)

/-- C5: a record with amount at most 25 and no receipt triggers neither the
meals receipt rule nor the universal receipt rule: no "Receipt required"
entry appears in `required_documents`. -/
theorem validate_small_amount_no_receipt_doc (e : ExpenseRecord) (q : ℚ)
    (hamt : pyFloat e.amount = .ok q) (hq : q ≤ 25) (_hr : e.has_receipt = false) :
    "Receipt required for meals over $25" ∉ (validate_expense_data e).required_documents ∧
    "Receipt required for all expenses over $25"
      ∉ (validate_expense_data e).required_documents := by
  have h25 : ¬ q > 25 := not_lt.mpr hq
  unfold validate_expense_data
  simp only [hamt]
  rw [weekendRule_docs, universalReceiptRule_docs_small _ _ _ h25,
      categoryRules_docs_small _ _ _ _ h25]
  simp

/-- C5 (witness): the receipt rules at the concrete record
`{amount: 20, category: "meals", has_receipt: false}`. -/
theorem validate_small_amount_no_receipt_doc_witness :
    "Receipt required for meals over $25"
      ∉ (validate_expense_data { amount := .num 20, category := some "meals" }).required_documents ∧
    "Receipt required for all expenses over $25"
      ∉ (validate_expense_data { amount := .num 20, category := some "meals" }).required_documents :=
  validate_small_amount_no_receipt_doc _ 20 rfl (by decide) rfl

theorem optEntry_key {k : String} {M : Option ℚ} {p : String × ℚ}
    (h : p ∈ optEntry k M) : p.1 = k := by
  cases M with
  | none => simp [optEntry] at h
  | some w =>
    simp only [optEntry, List.mem_singleton] at h
    rw [h]

theorem optEntry_eq_nil {k : String} {M : Option ℚ} :
    optEntry k M = [] ↔ M = none := by
  cases M <;> simp [optEntry]

theorem setMax_fresh_append (sc : List (String × ℚ)) (key : String) (v w : ℚ)
    (hfresh : ∀ p ∈ sc, p.1 ≠ key) :
    setMax (sc ++ [(key, v)]) key w = sc ++ [(key, max v w)] := by
  induction sc with
  | nil => simp [setMax]
  | cons p t ih =>
    obtain ⟨k, x⟩ := p
    have hp : k ≠ key := hfresh (k, x) (by simp)
    simp only [List.cons_append, setMax, if_neg hp, List.append_eq]
    rw [ih (fun q hq => hfresh q (List.mem_cons_of_mem _ hq))]

theorem setMax_absent (sc : List (String × ℚ)) (key : String) (w : ℚ)
    (hfresh : ∀ p ∈ sc, p.1 ≠ key) :
    setMax sc key w = sc ++ [(key, max 0 w)] := by
  induction sc with
  | nil => simp [setMax]
  | cons p t ih =>
    obtain ⟨k, x⟩ := p
    have hp : k ≠ key := hfresh (k, x) (by simp)
    simp only [List.cons_append, setMax, if_neg hp, List.append_eq]
    rw [ih (fun q hq => hfresh q (List.mem_cons_of_mem _ hq))]

theorem scoreLoop_present (key dl ml : String) (tbl sc : List (String × ℚ)) (v : ℚ)
    (hfresh : ∀ p ∈ sc, p.1 ≠ key) :
    scoreLoop key dl ml tbl (sc ++ [(key, v)]) =
      sc ++ [(key, (tbl.filter fun kv => substrB kv.1 dl || substrB kv.1 ml).foldl
        (fun acc kv => max acc kv.2) v)] := by
  induction tbl generalizing v with
  | nil => simp [scoreLoop]
  | cons kv t ih =>
    by_cases hm : (substrB kv.1 dl || substrB kv.1 ml) = true
    · simp only [scoreLoop, if_pos hm]
      rw [setMax_fresh_append _ _ _ _ hfresh, ih]
      rw [List.filter_cons, if_pos hm]
      rfl
    · simp only [scoreLoop, if_neg hm]
      rw [ih, List.filter_cons, if_neg hm]

theorem scoreLoop_fresh (key dl ml : String) (tbl sc : List (String × ℚ))
    (hfresh : ∀ p ∈ sc, p.1 ≠ key) (hpos : ∀ p ∈ tbl, 0 < p.2) :
    scoreLoop key dl ml tbl sc = sc ++ optEntry key (maxMatched tbl dl ml) := by
  induction tbl with
  | nil => simp [scoreLoop, maxMatched, optEntry]
  | cons kv t ih =>
    by_cases hm : (substrB kv.1 dl || substrB kv.1 ml) = true
    · simp only [scoreLoop, if_pos hm]
      rw [setMax_absent _ _ _ hfresh,
        max_eq_right (le_of_lt (hpos kv (List.mem_cons_self _ _))),
        scoreLoop_present _ _ _ _ _ _ hfresh]
      unfold maxMatched
      rw [List.filter_cons, if_pos hm, List.map_cons]
      show _ = sc ++ [(key, ((t.filter _).map (fun kv => kv.2)).foldl max kv.2)]
      rw [List.foldl_map]
    · simp only [scoreLoop, if_neg hm]
      rw [ih (fun p hp => hpos p (List.mem_cons_of_mem _ hp))]
      unfold maxMatched
      rw [List.filter_cons, if_neg hm]

theorem categoryScores_eq (d m : String) :
    categoryScores d m =
      optEntry "transportation" (maxMatched transport_keywords (pyLower d) (pyLower m)) ++
      optEntry "lodging" (maxMatched lodging_keywords (pyLower d) (pyLower m)) ++
      optEntry "meals" (maxMatched meal_keywords (pyLower d) (pyLower m)) ++
      optEntry "office_supplies" (maxMatched office_keywords (pyLower d) (pyLower m)) := by
  unfold categoryScores
  rw [scoreLoop_fresh "transportation" _ _ _ _ (by simp) (by decide), List.nil_append]
  rw [scoreLoop_fresh "lodging" _ _ _ _
    (fun p hp => by rw [optEntry_key hp]; decide) (by decide)]
  rw [scoreLoop_fresh "meals" _ _ _ _
    (fun p hp => by
      rcases List.mem_append.mp hp with h | h <;> rw [optEntry_key h] <;> decide)
    (by decide)]
  rw [scoreLoop_fresh "office_supplies" _ _ _ _
    (fun p hp => by
      rcases List.mem_append.mp hp with h | h
      · rcases List.mem_append.mp h with h2 | h2 <;> rw [optEntry_key h2] <;> decide
      · rw [optEntry_key h]; decide)
    (by decide)]

theorem categoryScores_keys (d m : String) (p : String × ℚ)
    (hp : p ∈ categoryScores d m) :
    p.1 = "transportation" ∨ p.1 = "lodging" ∨ p.1 = "meals" ∨ p.1 = "office_supplies" := by
  rw [categoryScores_eq] at hp
  simp only [List.mem_append] at hp
  rcases hp with ((h | h) | h) | h
  · exact Or.inl (optEntry_key h)
  · exact Or.inr (Or.inl (optEntry_key h))
  · exact Or.inr (Or.inr (Or.inl (optEntry_key h)))
  · exact Or.inr (Or.inr (Or.inr (optEntry_key h)))

theorem categoryScores_keys_nodup (d m : String) :
    ((categoryScores d m).map Prod.fst).Nodup := by
  rw [categoryScores_eq]
  have hs : ∀ (k : String) (M : Option ℚ), ((optEntry k M).map Prod.fst).Sublist [k] := by
    intro k M
    cases M <;> simp [optEntry]
  refine List.Nodup.sublist ?_
    (by decide : (["transportation", "lodging", "meals", "office_supplies"] : List String).Nodup)
  simp only [List.map_append]
  exact (((hs _ _).append (hs _ _)).append (hs _ _)).append (hs _ _)

theorem categoryScores_nil_iff (d m : String) :
    categoryScores d m = [] ↔ noKeywordMatch d m := by
  rw [categoryScores_eq]
  simp only [List.append_eq_nil, optEntry_eq_nil, maxMatched, List.max?_eq_none_iff,
    List.map_eq_nil_iff, List.filter_eq_nil_iff, noKeywordMatch, catTables]
  constructor
  · rintro ⟨⟨⟨h1, h2⟩, h3⟩, h4⟩
    intro nt hnt kv hkv
    simp only [List.mem_cons, List.not_mem_nil, or_false] at hnt
    rcases hnt with h | h | h | h <;> subst h <;>
      simp only at hkv <;>
      first
      | exact by
          have := h1 kv hkv
          simp only [Bool.or_eq_true, not_or, Bool.not_eq_true] at this
          exact this
      | exact by
          have := h2 kv hkv
          simp only [Bool.or_eq_true, not_or, Bool.not_eq_true] at this
          exact this
      | exact by
          have := h3 kv hkv
          simp only [Bool.or_eq_true, not_or, Bool.not_eq_true] at this
          exact this
      | exact by
          have := h4 kv hkv
          simp only [Bool.or_eq_true, not_or, Bool.not_eq_true] at this
          exact this
  · intro h
    refine ⟨⟨⟨?_, ?_⟩, ?_⟩, ?_⟩ <;>
      intro kv hkv <;>
      simp only [Bool.or_eq_true, not_or, Bool.not_eq_true]
    · exact h ("transportation", transport_keywords) (by simp) kv hkv
    · exact h ("lodging", lodging_keywords) (by simp) kv hkv
    · exact h ("meals", meal_keywords) (by simp) kv hkv
    · exact h ("office_supplies", office_keywords) (by simp) kv hkv

theorem pyMaxBy_eq_none_iff (l : List (String × ℚ)) :
    pyMaxBy (fun p : String × ℚ => p.2) l = none ↔ l = [] := by
  cases l with
  | nil => simp [pyMaxBy]
  | cons x xs =>
    cases h : pyMaxBy (fun p : String × ℚ => p.2) xs <;>
      simp [pyMaxBy, h] <;> split_ifs <;> simp

theorem pyMaxBy_mem {l : List (String × ℚ)} {y : String × ℚ}
    (h : pyMaxBy (fun p : String × ℚ => p.2) l = some y) : y ∈ l := by
  induction l generalizing y with
  | nil => simp [pyMaxBy] at h
  | cons x xs ih =>
    rw [pyMaxBy] at h
    cases hx : pyMaxBy (fun p : String × ℚ => p.2) xs with
    | none =>
      rw [hx] at h
      simp only [Option.some.injEq] at h
      rw [← h]
      exact List.mem_cons_self _ _
    | some z =>
      rw [hx] at h
      simp only at h
      split_ifs at h with hlt <;> simp only [Option.some.injEq] at h <;> rw [← h]
      · exact List.mem_cons_of_mem _ (ih hx)
      · exact List.mem_cons_self _ _

theorem pyMaxBy_le {l : List (String × ℚ)} {y : String × ℚ}
    (h : pyMaxBy (fun p : String × ℚ => p.2) l = some y) :
    ∀ x ∈ l, x.2 ≤ y.2 := by
  induction l generalizing y with
  | nil => simp [pyMaxBy] at h
  | cons x xs ih =>
    rw [pyMaxBy] at h
    cases hx : pyMaxBy (fun p : String × ℚ => p.2) xs with
    | none =>
      rw [hx] at h
      simp only [Option.some.injEq] at h
      have hxs : xs = [] := (pyMaxBy_eq_none_iff xs).mp hx
      subst hxs
      intro q hq
      simp only [List.mem_singleton] at hq
      rw [hq, ← h]
    | some z =>
      rw [hx] at h
      simp only at h
      split_ifs at h with hlt <;> simp only [Option.some.injEq] at h <;> subst h
      · intro q hq
        rcases List.mem_cons.mp hq with rfl | hq
        · exact le_of_lt hlt
        · exact ih hx q hq
      · intro q hq
        rcases List.mem_cons.mp hq with rfl | hq
        · exact le_refl _
        · exact le_trans (ih hx q hq) (not_lt.mp hlt)

theorem pyMaxBy_find? {l : List (String × ℚ)} {y : String × ℚ}
    (h : pyMaxBy (fun p : String × ℚ => p.2) l = some y) :
    l.find? (fun p => decide (y.2 ≤ p.2)) = some y := by
  induction l generalizing y with
  | nil => simp [pyMaxBy] at h
  | cons x xs ih =>
    rw [pyMaxBy] at h
    cases hx : pyMaxBy (fun p : String × ℚ => p.2) xs with
    | none =>
      rw [hx] at h
      simp only [Option.some.injEq] at h
      subst h
      simp [List.find?_cons]
    | some z =>
      rw [hx] at h
      simp only at h
      split_ifs at h with hlt <;> simp only [Option.some.injEq] at h <;> subst h
      · rw [List.find?_cons_of_neg _ (by simp [not_le.mpr hlt])]
        exact ih hx
      · simp [List.find?_cons]

theorem sortDescBySnd_perm (l : List (String × ℚ)) : (sortDescBySnd l).Perm l :=
  List.perm_insertionSort _ l

theorem sortDescBySnd_sorted (l : List (String × ℚ)) :
    List.Sorted (fun x y : String × ℚ => y.2 ≤ x.2) (sortDescBySnd l) := by
  haveI : IsTotal (String × ℚ) (fun x y : String × ℚ => y.2 ≤ x.2) :=
    ⟨fun a b => le_total b.2 a.2⟩
  haveI : IsTrans (String × ℚ) (fun x y : String × ℚ => y.2 ≤ x.2) :=
    ⟨fun _ _ _ hab hbc => le_trans hbc hab⟩
  exact List.sorted_insertionSort _ l

theorem sortDescBySnd_head? (l : List (String × ℚ)) :
    (sortDescBySnd l).head? = pyMaxBy (fun p : String × ℚ => p.2) l := by
  induction l with
  | nil => rfl
  | cons x t ih =>
    show (List.orderedInsert _ x (sortDescBySnd t)).head? = _
    cases hs : sortDescBySnd t with
    | nil =>
      have ht : t = [] := by
        have hlen := (sortDescBySnd_perm t).length_eq
        rw [hs] at hlen
        exact List.length_eq_zero.mp hlen.symm
      subst ht
      rfl
    | cons y ys =>
      have hy : pyMaxBy (fun p : String × ℚ => p.2) t = some y := by
        rw [← ih, hs]
        rfl
      rw [List.orderedInsert, pyMaxBy, hy]
      by_cases hc : y.2 ≤ x.2
      · rw [if_pos hc]
        show some x = if x.2 < y.2 then some y else some x
        rw [if_neg (not_lt.mpr hc)]
      · rw [if_neg hc]
        show some y = if x.2 < y.2 then some y else some x
        rw [if_pos (not_le.mp hc)]

/-- C1 (amended): the no-match fallback of `categorize_expense` returns
category `"miscellaneous"`, subcategory `"other"`, confidence 0.2 (not 0.0)
and no alternatives; and conversely, this fallback result is returned
exactly when no keyword of any of the four tables occurs in the case-folded
description or merchant. -/
theorem categorize_fallback_iff_no_keyword_match (d m : String) (a : ℚ) :
    categorize_expense d m a =
      ⟨"miscellaneous", "other", mkRat 2 10, []⟩ ↔ noKeywordMatch d m := by
  rw [← categoryScores_nil_iff]
  unfold categorize_expense
  cases hmb : pyMaxBy (fun p : String × ℚ => p.2) (categoryScores d m) with
  | none =>
    have hnil : categoryScores d m = [] := (pyMaxBy_eq_none_iff _).mp hmb
    simp [hnil, pyMaxBy]
  | some best =>
    have hne : categoryScores d m ≠ [] := by
      intro hn
      rw [hn] at hmb
      simp [pyMaxBy] at hmb
    simp only [iff_false, hne]
    intro h
    have hcat : best.1 = "miscellaneous" := by
      have h2 := congrArg CategorizationResult.category h
      simpa using h2
    rcases categoryScores_keys d m best (pyMaxBy_mem hmb) with h1 | h1 | h1 | h1 <;>
      rw [h1] at hcat <;> exact absurd hcat (by decide)

/-- C1 (witness): the fallback equivalence applied at the concrete no-match
call `categorize_expense("", "", 0)`. -/
theorem categorize_fallback_iff_no_keyword_match_witness :
    categorize_expense "" "" 0 = ⟨"miscellaneous", "other", mkRat 2 10, []⟩ :=
  (categorize_fallback_iff_no_keyword_match "" "" 0).mpr (by decide)

theorem lookup_fresh {l : List (String × ℚ)} {k : String}
    (h : ∀ p ∈ l, p.1 ≠ k) : l.lookup k = none := by
  induction l with
  | nil => rfl
  | cons p t ih =>
    obtain ⟨k1, v1⟩ := p
    have hb : (k == k1) = false :=
      beq_eq_false_iff_ne.mpr fun he => (h (k1, v1) (by simp)) (by simp [he])
    simp only [List.lookup, hb]
    exact ih fun q hq => h q (List.mem_cons_of_mem _ hq)

theorem lookup_optEntry_self (k : String) (M : Option ℚ) (rest : List (String × ℚ))
    (hfresh : ∀ p ∈ rest, p.1 ≠ k) :
    (optEntry k M ++ rest).lookup k = M := by
  cases M with
  | none => simpa [optEntry] using lookup_fresh hfresh
  | some w => simp [optEntry, List.lookup]

theorem lookup_optEntry_other (k q : String) (M : Option ℚ) (rest : List (String × ℚ))
    (hne : q ≠ k) : (optEntry k M ++ rest).lookup q = rest.lookup q := by
  cases M with
  | none => simp [optEntry]
  | some w => simp [optEntry, List.lookup, beq_eq_false_iff_ne.mpr hne]

theorem categoryScores_lookup (d m : String) :
    (categoryScores d m).lookup "transportation" =
      maxMatched transport_keywords (pyLower d) (pyLower m) ∧
    (categoryScores d m).lookup "lodging" =
      maxMatched lodging_keywords (pyLower d) (pyLower m) ∧
    (categoryScores d m).lookup "meals" =
      maxMatched meal_keywords (pyLower d) (pyLower m) ∧
    (categoryScores d m).lookup "office_supplies" =
      maxMatched office_keywords (pyLower d) (pyLower m) := by
  rw [categoryScores_eq, List.append_assoc, List.append_assoc]
  have k2 : ∀ p ∈ optEntry "lodging" (maxMatched lodging_keywords (pyLower d) (pyLower m)) ++
      (optEntry "meals" (maxMatched meal_keywords (pyLower d) (pyLower m)) ++
       optEntry "office_supplies" (maxMatched office_keywords (pyLower d) (pyLower m))),
      p.1 = "lodging" ∨ p.1 = "meals" ∨ p.1 = "office_supplies" := by
    intro p hp
    rcases List.mem_append.mp hp with h | h
    · exact Or.inl (optEntry_key h)
    · rcases List.mem_append.mp h with h2 | h2
      · exact Or.inr (Or.inl (optEntry_key h2))
      · exact Or.inr (Or.inr (optEntry_key h2))
  have k3 : ∀ p ∈ optEntry "meals" (maxMatched meal_keywords (pyLower d) (pyLower m)) ++
      optEntry "office_supplies" (maxMatched office_keywords (pyLower d) (pyLower m)),
      p.1 = "meals" ∨ p.1 = "office_supplies" := by
    intro p hp
    rcases List.mem_append.mp hp with h | h
    · exact Or.inl (optEntry_key h)
    · exact Or.inr (optEntry_key h)
  refine ⟨?_, ?_, ?_, ?_⟩
  · exact lookup_optEntry_self _ _ _
      (fun p hp => by rcases k2 p hp with h | h | h <;> rw [h] <;> decide)
  · rw [lookup_optEntry_other _ _ _ _ (by decide)]
    exact lookup_optEntry_self _ _ _
      (fun p hp => by rcases k3 p hp with h | h <;> rw [h] <;> decide)
  · rw [lookup_optEntry_other _ _ _ _ (by decide),
      lookup_optEntry_other _ _ _ _ (by decide)]
    exact lookup_optEntry_self _ _ _
      (fun p hp => by rw [optEntry_key hp]; decide)
  · rw [lookup_optEntry_other _ _ _ _ (by decide),
      lookup_optEntry_other _ _ _ _ (by decide),
      lookup_optEntry_other _ _ _ _ (by decide),
      ← List.append_nil (optEntry "office_supplies"
        (maxMatched office_keywords (pyLower d) (pyLower m)))]
    exact lookup_optEntry_self _ _ _ (by simp)

/-- C7: in `categorize_expense`, (1) each category's score in
`category_scores` is the maximum weight among its table's keywords occurring
in the case-folded description or merchant (not a sum); (2) the returned
category/confidence pair is a score entry and its confidence is globally
maximal; (3) the returned pair is the first score entry attaining the
maximum (first-encountered tie-break); (4) the alternatives are at most 2,
sorted by descending score, distinct from the chosen category and from each
other, and every non-chosen, non-alternative score is at most every
alternative's score (they are the 2nd and 3rd highest). -/
theorem categorize_scoring (d m : String) (a : ℚ) (h : categoryScores d m ≠ []) :
    ((categoryScores d m).lookup "transportation" =
        maxMatched transport_keywords (pyLower d) (pyLower m) ∧
      (categoryScores d m).lookup "lodging" =
        maxMatched lodging_keywords (pyLower d) (pyLower m) ∧
      (categoryScores d m).lookup "meals" =
        maxMatched meal_keywords (pyLower d) (pyLower m) ∧
      (categoryScores d m).lookup "office_supplies" =
        maxMatched office_keywords (pyLower d) (pyLower m)) ∧
    (((categorize_expense d m a).category, (categorize_expense d m a).confidence)
        ∈ categoryScores d m ∧
      ∀ p ∈ categoryScores d m, p.2 ≤ (categorize_expense d m a).confidence) ∧
    ((categoryScores d m).find?
        (fun p => decide ((categorize_expense d m a).confidence ≤ p.2)) =
      some ((categorize_expense d m a).category, (categorize_expense d m a).confidence)) ∧
    ((categorize_expense d m a).alternative_categories.length =
        min 2 ((categoryScores d m).length - 1) ∧
      List.Pairwise (fun x y : String × ℚ => y.2 ≤ x.2)
        (categorize_expense d m a).alternative_categories ∧
      (∀ q ∈ (categorize_expense d m a).alternative_categories,
        q ∈ categoryScores d m ∧ q.2 ≤ (categorize_expense d m a).confidence ∧
          q.1 ≠ (categorize_expense d m a).category) ∧
      (∀ p ∈ categoryScores d m,
        p.1 ≠ (categorize_expense d m a).category →
        p.1 ∉ (categorize_expense d m a).alternative_categories.map Prod.fst →
        ∀ q ∈ (categorize_expense d m a).alternative_categories, p.2 ≤ q.2)) := by
  obtain ⟨best, hmb⟩ : ∃ b, pyMaxBy (fun p : String × ℚ => p.2) (categoryScores d m) = some b := by
    cases hm : pyMaxBy (fun p : String × ℚ => p.2) (categoryScores d m) with
    | none => exact absurd ((pyMaxBy_eq_none_iff _).mp hm) h
    | some b => exact ⟨b, rfl⟩
  have hfield : (categorize_expense d m a).category = best.1 ∧
      (categorize_expense d m a).confidence = best.2 ∧
      (categorize_expense d m a).alternative_categories =
        ((sortDescBySnd (categoryScores d m)).drop 1).take 2 := by
    unfold categorize_expense
    rw [hmb]
    exact ⟨rfl, rfl, rfl⟩
  obtain ⟨hcatf, hconf, halts⟩ := hfield
  have hhead : (sortDescBySnd (categoryScores d m)).head? = some best := by
    rw [sortDescBySnd_head?, hmb]
  obtain ⟨tl, hS⟩ : ∃ tl, sortDescBySnd (categoryScores d m) = best :: tl := by
    cases hs : sortDescBySnd (categoryScores d m) with
    | nil =>
      rw [hs] at hhead
      simp at hhead
    | cons b tl' =>
      rw [hs] at hhead
      simp only [List.head?_cons, Option.some.injEq] at hhead
      exact ⟨tl', by rw [hhead]⟩
  have hperm : (best :: tl).Perm (categoryScores d m) := by
    rw [← hS]
    exact sortDescBySnd_perm _
  have hsorted : List.Sorted (fun x y : String × ℚ => y.2 ≤ x.2) (best :: tl) := by
    rw [← hS]
    exact sortDescBySnd_sorted _
  have hsorted_cons := List.sorted_cons.mp hsorted
  have hnodup : (List.map Prod.fst (best :: tl)).Nodup :=
    (hperm.map Prod.fst).nodup_iff.mpr (categoryScores_keys_nodup d m)
  have hbest_notin : best.1 ∉ List.map Prod.fst tl := by
    rw [List.map_cons, List.nodup_cons] at hnodup
    exact hnodup.1
  have haltseq : (categorize_expense d m a).alternative_categories = tl.take 2 := by
    rw [halts, hS]
    rfl
  refine ⟨categoryScores_lookup d m, ⟨?_, ?_⟩, ?_, ?_, ?_, ?_, ?_⟩
  · rw [hcatf, hconf, Prod.mk.eta]
    exact pyMaxBy_mem hmb
  · rw [hconf]
    exact pyMaxBy_le hmb
  · simp only [hcatf, hconf, Prod.mk.eta]
    exact pyMaxBy_find? hmb
  · rw [haltseq, List.length_take]
    have hlen := hperm.length_eq
    simp only [List.length_cons] at hlen
    omega
  · rw [haltseq]
    exact List.Pairwise.sublist (List.take_sublist 2 tl) hsorted_cons.2
  · intro q hq
    rw [haltseq] at hq
    have hqtl : q ∈ tl := (List.take_sublist 2 tl).subset hq
    refine ⟨hperm.mem_iff.mp (List.mem_cons_of_mem _ hqtl), ?_, ?_⟩
    · rw [hconf]
      exact hsorted_cons.1 q hqtl
    · rw [hcatf]
      intro he
      exact hbest_notin (he ▸ List.mem_map_of_mem Prod.fst hqtl)
  · intro p hp hne hnotin q hq
    rw [hcatf] at hne
    rw [haltseq] at hnotin hq
    have hpcons : p ∈ best :: tl := hperm.mem_iff.mpr hp
    rcases List.mem_cons.mp hpcons with rfl | hptl
    · exact absurd rfl hne
    have hptake : p ∉ tl.take 2 := fun hc => hnotin (List.mem_map_of_mem Prod.fst hc)
    have hpdrop : p ∈ tl.drop 2 := by
      have := List.take_append_drop 2 tl
      rcases List.mem_append.mp (this ▸ hptl) with hc | hc
      · exact absurd hc hptake
      · exact hc
    have hPW : List.Pairwise (fun x y : String × ℚ => y.2 ≤ x.2) (tl.take 2 ++ tl.drop 2) := by
      rw [List.take_append_drop]
      exact hsorted_cons.2
    exact (List.pairwise_append.mp hPW).2.2 q hq p hpdrop

/-- C7 (witness): the scoring characterization applied at the concrete call
`categorize_expense("taxi", "", 0)`. -/
theorem categorize_scoring_witness :
    ((categorize_expense "taxi" "" 0).category, (categorize_expense "taxi" "" 0).confidence)
      ∈ categoryScores "taxi" "" ∧
    (categoryScores "taxi" "").lookup "transportation" =
      maxMatched transport_keywords (pyLower "taxi") (pyLower "") ∧
    (categorize_expense "taxi" "" 0).alternative_categories.length =
      min 2 ((categoryScores "taxi" "").length - 1) :=
  have h := categorize_scoring "taxi" "" 0 (by decide)
  ⟨h.2.1.1, h.1.1, h.2.2.2.1⟩

theorem perm_any {α : Type} (p : α → Bool) {l l' : List α} (h : l.Perm l') :
    l.any p = l'.any p := by
  induction h with
  | nil => rfl
  | cons x _ ih => simp [List.any_cons, ih]
  | swap x y l => simp [List.any_cons, Bool.or_left_comm]
  | trans _ _ ih1 ih2 => rw [ih1, ih2]

theorem perm_all {α : Type} (p : α → Bool) {l l' : List α} (h : l.Perm l') :
    l.all p = l'.all p := by
  induction h with
  | nil => rfl
  | cons x _ ih => simp [List.all_cons, ih]
  | swap x y l => simp [List.all_cons, Bool.and_left_comm]
  | trans _ _ ih1 ih2 => rw [ih1, ih2]

theorem sortAscStr_perm (l : List String) : (sortAscStr l).Perm l :=
  List.perm_insertionSort _ l

theorem sortAscStr_sorted (l : List String) :
    List.Sorted (fun x y : String => x ≤ y) (sortAscStr l) := by
  haveI : IsTotal String (fun x y : String => x ≤ y) := ⟨fun a b => le_total a b⟩
  haveI : IsTrans String (fun x y : String => x ≤ y) := ⟨fun _ _ _ => le_trans⟩
  exact List.sorted_insertionSort _ l

theorem sortAscStr_perm_eq {l l' : List String} (h : l.Perm l') :
    sortAscStr l = sortAscStr l' := by
  haveI : IsAntisymm String (fun x y : String => x ≤ y) := ⟨fun _ _ => le_antisymm⟩
  exact List.eq_of_perm_of_sorted
    (((sortAscStr_perm l).trans h).trans (sortAscStr_perm l').symm)
    (sortAscStr_sorted l) (sortAscStr_sorted l')

theorem lkCount_cons_ne {k : String} {d : CatData} {t : List (String × CatData)}
    {c : String} (hb : (c == k) = false) : lkCount ((k, d) :: t) c = lkCount t c := by
  simp [lkCount, List.lookup, hb]

theorem lkTotal_cons_ne {k : String} {d : CatData} {t : List (String × CatData)}
    {c : String} (hb : (c == k) = false) : lkTotal ((k, d) :: t) c = lkTotal t c := by
  simp [lkTotal, List.lookup, hb]

theorem bumpCat_isSome (cats : List (String × CatData)) (c0 : String) (a : ℚ)
    (desc dt c : String) :
    ((bumpCat cats c0 a desc dt).lookup c).isSome =
      ((cats.lookup c).isSome || decide (c = c0)) := by
  induction cats with
  | nil =>
    by_cases hc : c = c0
    · simp [bumpCat, List.lookup, hc]
    · have hb : (c == c0) = false := beq_eq_false_iff_ne.mpr hc
      simp [bumpCat, List.lookup, hb, hc]
  | cons p t ih =>
    obtain ⟨k, d⟩ := p
    by_cases hk : k = c0
    · subst hk
      by_cases hc : c = k
      · simp [bumpCat, List.lookup, hc]
      · have hb : (c == k) = false := beq_eq_false_iff_ne.mpr hc
        simp [bumpCat, List.lookup, hb, hc]
    · by_cases hc : c = k
      · subst hc
        simp [bumpCat, List.lookup, if_neg hk, Ne.symm hk, hk]
      · have hb : (c == k) = false := beq_eq_false_iff_ne.mpr hc
        simp [bumpCat, List.lookup, if_neg hk, hb, ih]

theorem bumpCat_lkCount (cats : List (String × CatData)) (c0 : String) (a : ℚ)
    (desc dt c : String) :
    lkCount (bumpCat cats c0 a desc dt) c = lkCount cats c + (if c = c0 then 1 else 0) := by
  induction cats with
  | nil =>
    by_cases hc : c = c0
    · simp [bumpCat, lkCount, List.lookup, hc]
    · have hb : (c == c0) = false := beq_eq_false_iff_ne.mpr hc
      simp [bumpCat, lkCount, List.lookup, hb, hc]
  | cons p t ih =>
    obtain ⟨k, d⟩ := p
    by_cases hk : k = c0
    · subst hk
      by_cases hc : c = k
      · simp [bumpCat, lkCount, List.lookup, hc]
      · have hb : (c == k) = false := beq_eq_false_iff_ne.mpr hc
        simp [bumpCat, lkCount, List.lookup, hb, hc]
    · by_cases hc : c = k
      · subst hc
        simp [bumpCat, lkCount, List.lookup, if_neg hk, hk]
      · have hb : (c == k) = false := beq_eq_false_iff_ne.mpr hc
        rw [show bumpCat ((k, d) :: t) c0 a desc dt = (k, d) :: bumpCat t c0 a desc dt from by
          simp [bumpCat, hk]]
        rw [lkCount_cons_ne hb, lkCount_cons_ne hb, ih]

theorem bumpCat_lkTotal (cats : List (String × CatData)) (c0 : String) (a : ℚ)
    (desc dt c : String) :
    lkTotal (bumpCat cats c0 a desc dt) c = lkTotal cats c + (if c = c0 then a else 0) := by
  induction cats with
  | nil =>
    by_cases hc : c = c0
    · simp [bumpCat, lkTotal, List.lookup, hc]
    · have hb : (c == c0) = false := beq_eq_false_iff_ne.mpr hc
      simp [bumpCat, lkTotal, List.lookup, hb, hc]
  | cons p t ih =>
    obtain ⟨k, d⟩ := p
    by_cases hk : k = c0
    · subst hk
      by_cases hc : c = k
      · simp [bumpCat, lkTotal, List.lookup, hc]
      · have hb : (c == k) = false := beq_eq_false_iff_ne.mpr hc
        simp [bumpCat, lkTotal, List.lookup, hb, hc]
    · by_cases hc : c = k
      · subst hc
        simp [bumpCat, lkTotal, List.lookup, if_neg hk, hk]
      · have hb : (c == k) = false := beq_eq_false_iff_ne.mpr hc
        rw [show bumpCat ((k, d) :: t) c0 a desc dt = (k, d) :: bumpCat t c0 a desc dt from by
          simp [bumpCat, hk]]
        rw [lkTotal_cons_ne hb, lkTotal_cons_ne hb, ih]

theorem sumLoop_total (es : List ExpenseRecord) : ∀ (i : Nat) (acc : LoopAcc),
    (sumLoop i acc es).total = acc.total + (es.filterMap okAmt).sum := by
  induction es with
  | nil => intro i acc; simp [sumLoop]
  | cons e t ih =>
    intro i acc
    show (sumLoop (i + 1) (processOne i acc e) t).total = _
    rw [ih]
    cases hq : pyFloat e.amount with
    | error msg => simp [processOne, hq, okAmt, Except.toOption, List.filterMap_cons]
    | ok q => simp [processOne, hq, okAmt, Except.toOption, List.filterMap_cons, add_assoc]

theorem sumLoop_ready (es : List ExpenseRecord) : ∀ (i : Nat) (acc : LoopAcc),
    (sumLoop i acc es).ready = (acc.ready && es.all recOk) := by
  induction es with
  | nil => intro i acc; simp [sumLoop]
  | cons e t ih =>
    intro i acc
    show (sumLoop (i + 1) (processOne i acc e) t).ready = _
    rw [ih]
    cases hq : pyFloat e.amount with
    | error msg => simp [processOne, hq, recOk, List.all_cons]
    | ok q => simp [processOne, hq, recOk, List.all_cons, Bool.and_assoc]

theorem sumLoop_dates (es : List ExpenseRecord) : ∀ (i : Nat) (acc : LoopAcc),
    (sumLoop i acc es).dates = acc.dates ++ es.filterMap dateOf := by
  induction es with
  | nil => intro i acc; simp [sumLoop]
  | cons e t ih =>
    intro i acc
    show (sumLoop (i + 1) (processOne i acc e) t).dates = _
    rw [ih]
    cases hq : pyFloat e.amount with
    | error msg => simp [processOne, hq, dateOf, List.filterMap_cons]
    | ok q =>
      by_cases hd : e.date ≠ "" <;>
        simp [processOne, hq, dateOf, List.filterMap_cons, hd, List.append_assoc]

theorem sumLoop_isSome (es : List ExpenseRecord) (c : String) : ∀ (i : Nat) (acc : LoopAcc),
    (((sumLoop i acc es).cats.lookup c).isSome) =
      ((acc.cats.lookup c).isSome || es.any (fun e => recOkCat e c)) := by
  induction es with
  | nil => intro i acc; simp [sumLoop]
  | cons e t ih =>
    intro i acc
    show (((sumLoop (i + 1) (processOne i acc e) t).cats.lookup c).isSome) = _
    rw [ih]
    cases hq : pyFloat e.amount with
    | error msg => simp [processOne, hq, recOkCat, List.any_cons]
    | ok q =>
      simp only [processOne, hq, List.any_cons, bumpCat_isSome]
      by_cases hcc : c = e.category.getD "miscellaneous"
      · simp [recOkCat, hq, beq_iff_eq, hcc]
      · have hb : (e.category.getD "miscellaneous" == c) = false :=
          beq_eq_false_iff_ne.mpr (Ne.symm hcc)
        simp [recOkCat, hq, hb, hcc]

theorem sumLoop_lkCount (es : List ExpenseRecord) (c : String) : ∀ (i : Nat) (acc : LoopAcc),
    lkCount (sumLoop i acc es).cats c =
      lkCount acc.cats c + es.countP (fun e => recOkCat e c) := by
  induction es with
  | nil => intro i acc; simp [sumLoop]
  | cons e t ih =>
    intro i acc
    show lkCount (sumLoop (i + 1) (processOne i acc e) t).cats c = _
    rw [ih, List.countP_cons]
    cases hq : pyFloat e.amount with
    | error msg => simp [processOne, hq, recOkCat]
    | ok q =>
      simp only [processOne, hq, bumpCat_lkCount]
      by_cases hcc : c = e.category.getD "miscellaneous"
      · simp [recOkCat, hq, beq_iff_eq, hcc]
        omega
      · have hb : (e.category.getD "miscellaneous" == c) = false :=
          beq_eq_false_iff_ne.mpr (Ne.symm hcc)
        simp [recOkCat, hq, hb, hcc]

theorem sumLoop_lkTotal (es : List ExpenseRecord) (c : String) : ∀ (i : Nat) (acc : LoopAcc),
    lkTotal (sumLoop i acc es).cats c =
      lkTotal acc.cats c + (es.filterMap (fun e => amtIfCat e c)).sum := by
  induction es with
  | nil => intro i acc; simp [sumLoop]
  | cons e t ih =>
    intro i acc
    show lkTotal (sumLoop (i + 1) (processOne i acc e) t).cats c = _
    rw [ih, List.filterMap_cons]
    cases hq : pyFloat e.amount with
    | error msg => simp [processOne, hq, amtIfCat]
    | ok q =>
      simp only [processOne, hq, bumpCat_lkTotal]
      by_cases hcc : c = e.category.getD "miscellaneous"
      · have hb : (e.category.getD "miscellaneous" == c) = true := beq_iff_eq.mpr hcc.symm
        simp [amtIfCat, hq, hb, hcc, List.sum_cons]
        ring
      · have hb : (e.category.getD "miscellaneous" == c) = false :=
          beq_eq_false_iff_ne.mpr (Ne.symm hcc)
        simp [amtIfCat, hq, hb, hcc]

theorem lookup_map_value (cats : List (String × CatData)) (f : CatData → CatData)
    (c : String) :
    ((cats.map (fun p => (p.1, f p.2))).lookup c) = (cats.lookup c).map f := by
  induction cats with
  | nil => rfl
  | cons p t ih =>
    obtain ⟨k, d⟩ := p
    cases hb : (c == k) <;> simp [List.lookup, hb, ih]

theorem lookup_eq_of_measures {catsA catsB : List (String × CatData)} {c : String}
    (hsome : (catsA.lookup c).isSome = (catsB.lookup c).isSome)
    (hcount : lkCount catsA c = lkCount catsB c)
    (htotal : lkTotal catsA c = lkTotal catsB c) :
    (catsA.lookup c).map (fun dd => (dd.count, dd.total)) =
      (catsB.lookup c).map (fun dd => (dd.count, dd.total)) := by
  cases ha : catsA.lookup c <;> cases hb : catsB.lookup c <;>
    simp_all [lkCount, lkTotal]

/-- C6 (counterexample): the aggregator's `total_amount` is an IEEE-754
double accumulation and is not permutation-invariant in the program.  The
batch of three records with amounts `0.1`, `0.2`, `0.3` — whose binary64
values are `3602879701896397 * 2^-55`, `3602879701896397 * 2^-54` and
`5404319552844595 * 2^-54` — and its reversal are permutations of each
other, yet the accumulated totals differ: `0.6000000000000001`
(`5404319552844596 * 2^-53`) against `0.6` (`5404319552844595 * 2^-53`),
refuting the claimed invariance of `total_amount` as stated. -/
theorem generate_expense_summary_total_order_dependent :
    ([(⟨3602879701896397, -55⟩ : F64), ⟨3602879701896397, -54⟩,
        ⟨5404319552844595, -54⟩].Perm
      [⟨5404319552844595, -54⟩, ⟨3602879701896397, -54⟩,
        ⟨3602879701896397, -55⟩]) ∧
    floatTotal [⟨3602879701896397, -55⟩, ⟨3602879701896397, -54⟩,
        ⟨5404319552844595, -54⟩] = ⟨5404319552844596, -53⟩ ∧
    floatTotal [⟨5404319552844595, -54⟩, ⟨3602879701896397, -54⟩,
        ⟨3602879701896397, -55⟩] = ⟨5404319552844595, -53⟩ ∧
    fvalEq
      (floatTotal [⟨3602879701896397, -55⟩, ⟨3602879701896397, -54⟩,
        ⟨5404319552844595, -54⟩])
      (floatTotal [⟨5404319552844595, -54⟩, ⟨3602879701896397, -54⟩,
        ⟨3602879701896397, -55⟩]) = false := by
  decide

/-- C6 (amended): a permutation of the input batch leaves each category's
`count` and `compliance_status.ready_for_submission` unchanged, and leaves
`total_amount` and each category's `total` unchanged under exact
(real-number) summation of the amounts — the property proved here over the
exact-rational model.  In the program those two totals are binary64
accumulations, so their invariance holds only up to floating-point
rounding. -/
theorem generate_expense_summary_perm_invariant (es es' : List ExpenseRecord)
    (h : es.Perm es') :
    (generate_expense_summary es).total_amount =
      (generate_expense_summary es').total_amount ∧
    (∀ c, catCountTotal (generate_expense_summary es) c =
      catCountTotal (generate_expense_summary es') c) ∧
    (generate_expense_summary es).compliance_status.ready_for_submission =
      (generate_expense_summary es').compliance_status.ready_for_submission := by
  have hdates : sortAscStr (sumLoop 0 initAcc es).dates =
      sortAscStr (sumLoop 0 initAcc es').dates := by
    rw [sumLoop_dates, sumLoop_dates]
    exact sortAscStr_perm_eq ((h.filterMap dateOf).append_left initAcc.dates)
  have hlen := h.length_eq
  have hany : es.any (fun e => isBadAmount e.amount) =
      es'.any (fun e => isBadAmount e.amount) := perm_any _ h
  unfold generate_expense_summary
  rw [hdates, hlen, hany]
  split_ifs with hd hb
  · exact ⟨rfl, fun c => rfl, rfl⟩
  · exact ⟨rfl, fun c => rfl, rfl⟩
  · refine ⟨?_, ?_, ?_⟩
    · show (sumLoop 0 initAcc es).total = (sumLoop 0 initAcc es').total
      rw [sumLoop_total, sumLoop_total]
      exact congrArg (initAcc.total + ·) (h.filterMap okAmt).sum_eq
    · intro c
      simp only [catCountTotal, summaryBody]
      rw [lookup_map_value, lookup_map_value, Option.map_map, Option.map_map]
      exact lookup_eq_of_measures
        (by rw [sumLoop_isSome, sumLoop_isSome]
            exact congrArg (_ || ·) (perm_any _ h))
        (by rw [sumLoop_lkCount, sumLoop_lkCount]
            exact congrArg (_ + ·) (h.countP_eq _))
        (by rw [sumLoop_lkTotal, sumLoop_lkTotal]
            exact congrArg (_ + ·) (h.filterMap (fun e => amtIfCat e c)).sum_eq)
    · show (sumLoop 0 initAcc es).ready = (sumLoop 0 initAcc es').ready
      rw [sumLoop_ready, sumLoop_ready]
      exact congrArg (_ && ·) (perm_all _ h)

/-- C6 (witness): order-insensitivity at a concrete two-record batch and its
swap. -/
theorem generate_expense_summary_perm_invariant_witness :
    (generate_expense_summary
        [{ amount := .num 50, category := some "meals", has_receipt := true },
         { amount := .num 400, category := some "lodging", has_receipt := true }]).total_amount =
      (generate_expense_summary
        [{ amount := .num 400, category := some "lodging", has_receipt := true },
         { amount := .num 50, category := some "meals", has_receipt := true }]).total_amount ∧
    catCountTotal (generate_expense_summary
        [{ amount := .num 50, category := some "meals", has_receipt := true },
         { amount := .num 400, category := some "lodging", has_receipt := true }]) "meals" =
      catCountTotal (generate_expense_summary
        [{ amount := .num 400, category := some "lodging", has_receipt := true },
         { amount := .num 50, category := some "meals", has_receipt := true }]) "meals" ∧
    (generate_expense_summary
        [{ amount := .num 50, category := some "meals", has_receipt := true },
         { amount := .num 400, category := some "lodging", has_receipt := true }]).compliance_status.ready_for_submission =
      (generate_expense_summary
        [{ amount := .num 400, category := some "lodging", has_receipt := true },
         { amount := .num 50, category := some "meals", has_receipt := true }]).compliance_status.ready_for_submission :=
  have h := generate_expense_summary_perm_invariant
    [{ amount := .num 50, category := some "meals", has_receipt := true },
     { amount := .num 400, category := some "lodging", has_receipt := true }]
    [{ amount := .num 400, category := some "lodging", has_receipt := true },
     { amount := .num 50, category := some "meals", has_receipt := true }]
    (List.Perm.swap _ _ _)
  ⟨h.1, h.2.1 "meals", h.2.2⟩
